import Mathlib

/-!
# Verification of the torrent-go bencoding codec and metainfo projector

Shallow embedding of the repository's bencoding decoder (`parser` methods
`parseStr`, `parseInt`, `parseList`, `parseDict`, `parseVal` and the helper
`fromAscii`), its encoder (`encodeStr`, `encodeInt`, `encodeList`,
`encodeDict`, `encodeVal`), the SHA-1 digest used for the info-hash, and the
metainfo projectors `ParseTorrent` and `ParseMetaInfo`.

Conventions of the embedding:
* Go byte slices become `List Nat` (each element one byte value).
* Go `int` (64-bit, wrap-around) becomes `Int` with every arithmetic step
  reduced through `wrap64`, the two's-complement reduction modulo `2 ^ 64`.
* A Go run-time panic (out-of-range slice index, failed type assertion) is a
  distinguished result constructor `panics`, so that the absence or presence
  of panics is a provable statement.
* The parser methods mutate the cursor `p.i`; here every function takes the
  buffer and the cursor and returns the new cursor on success.
* Recursion through lists and dictionaries is driven by a fuel parameter; the
  distinguished result `out` marks fuel exhaustion (never reached from the
  top-level entry points, which pass ample fuel).
* Go map iteration order is unspecified; where the code iterates a map (the
  encoder) the order is passed in explicitly, see `encodeVal` and the
  `ord` parameter of the projectors.
-/

/-- Two's-complement reduction of an integer into the signed 64-bit range,
the semantics of wrap-around arithmetic on Go's `int`. -/
def wrap64 (x : Int) : Int := (x + 2 ^ 63) % 2 ^ 64 - 2 ^ 63

/-- Model of `bytes.IndexByte` / `strings.IndexByte`: index of the first
occurrence of byte `c`, `none` when absent (Go returns `-1`). -/
def indexByte : List Nat → Nat → Option Nat
  | [], _ => none
  | b :: rest, c => if b = c then some 0 else (indexByte rest c).map (· + 1)

/-- Loop body of `fromAscii` (file `src/unnamed/part_000`, lines 92-103),
processing the digit span from the least significant digit (the Go loop runs
from index `n-1` down to `0` with `exp` starting at 1). `none` models the
`false` flag returned on a non-digit byte. -/
def fromAsciiRev : List Nat → Int → Int → Option Int
  | [], num, _ => some num
  | b :: rest, num, exp =>
    if b < 48 ∨ 57 < b then none
    else fromAsciiRev rest (wrap64 (num + wrap64 ((b - 48 : Nat) * exp))) (wrap64 (exp * 10))

/-- `fromAscii` of `src/unnamed/part_000`: convert a fixed-size ASCII digit
span to an integer. The caller passes exactly the `n`-byte span the Go code
reads (`ascii[0] .. ascii[n-1]`). -/
def fromAscii (ascii : List Nat) : Option Int :=
  fromAsciiRev ascii.reverse 0 1

/-- The distinct `reason` strings carried by `parseError` in
`src/unnamed/part_000`:
`invalidString` is "invalid string", `invalidStringLength` is
"invalid string length specifier", `invalidInteger` is "invalid integer",
`invalidIntegerValue` is "invalid integer value", `invalidList` is
"invalid list", `invalidDictionary` is "invalid dictionary", and
`unmatchedDelim d` is the `errDelim` message naming delimiter byte `d`. -/
inductive PReason where
  | invalidString
  | invalidStringLength
  | invalidInteger
  | invalidIntegerValue
  | invalidList
  | invalidDictionary
  | unmatchedDelim (delim : Nat)
deriving DecidableEq

/-- `parseError` of `src/unnamed/part_000`: reason, context slice of the
encoded text, and 1-based column position. -/
structure PError where
  reason : PReason
  context : List Nat
  pos : Nat
deriving DecidableEq

/-- Model of `(p *parser) err(reason, endContext)`: context runs from the
cursor to `endContext` (the whole remaining text when `endContext < 0`),
position is the 1-based cursor. -/
def perr (enc : List Nat) (i : Nat) (reason : PReason) (endC : Int) : PError :=
  let e := if endC < 0 then enc.length else endC.toNat
  ⟨reason, (enc.take e).drop i, i + 1⟩

/-- Model of `(p *parser) errDelim(delim, start)`: the context is the
delimiter itself and the position is the opening delimiter's column. -/
def errDelim (delim : Nat) (start : Nat) : PError :=
  ⟨.unmatchedDelim delim, [delim], start + 1⟩

/-- Result of a parser method: success carries the value and the advanced
cursor; `err` a `parseError`; `panics` marks a Go run-time panic
(out-of-range index or slice); `out` marks fuel exhaustion of the embedding
(never reached from the top-level entry points). -/
inductive PRes (α : Type) where
  | ok : α → Nat → PRes α
  | err : PError → PRes α
  | panics : PRes α
  | out : PRes α
deriving DecidableEq

/-- Map the success value of a parser result. -/
def PRes.mapv : PRes α → (α → β) → PRes β
  | .ok a j, f => .ok (f a) j
  | .err e, _ => .err e
  | .panics, _ => .panics
  | .out, _ => .out

/-- `(p *parser) parseStr()` of `src/unnamed/part_000`, lines 106-121.
Finds the `:`, reads the length with `fromAscii`, then takes the following
`n` raw bytes. The Go slice `p.enc[p.i : p.i+n]` panics when the declared
length runs past the end of the buffer (or is negative after wrap-around);
this is the `panics` branch. -/
def parseStr (enc : List Nat) (i : Nat) : PRes (List Nat) :=
  match indexByte (enc.drop i) 58 with
  | none => .err (perr enc i .invalidString (-1))
  | some ci =>
    match fromAscii ((enc.drop i).take ci) with
    | none => .err (perr enc i .invalidStringLength (-1))
    | some n =>
      let i2 := i + ci + 1
      if n < 0 then .panics
      else if enc.length < i2 + n.toNat then .panics
      else .ok ((enc.drop i2).take n.toNat) (i2 + n.toNat)

/-- `(p *parser) parseInt()` of `src/unnamed/part_000`, lines 124-140.
Checks the leading `i` (byte 105), scans for the first `e` (byte 101), and
converts the span between with `fromAscii`. Reading `p.enc[p.i]` past the
end of the buffer is a panic. -/
def parseInt (enc : List Nat) (i : Nat) : PRes Int :=
  if h : i < enc.length then
    if enc[i] ≠ 105 then .err (perr enc i .invalidInteger (-1))
    else
      match indexByte (enc.drop i) 101 with
      | none => .err (errDelim 105 i)
      | some e1 =>
        match fromAscii ((enc.drop (i + 1)).take (e1 - 1)) with
        | none => .err (perr enc i .invalidIntegerValue (i + e1 + 1))
        | some num => .ok num (i + e1 + 1)
  else .panics

/-- The union of the four bencoded value shapes the Go code stores in `any`:
`string`, `int`, `[]any` and `map[string]any`.  A decoded dictionary is kept
as an association list in insertion order with unique keys (Go map contents;
the unspecified iteration order is supplied separately where the code
iterates). -/
inductive BValue where
  | str : List Nat → BValue
  | int : Int → BValue
  | list : List BValue → BValue
  | dict : List (List Nat × BValue) → BValue

/-- Contents of a Go `map[string]any` produced by `parseDict`. -/
abbrev GoMap := List (List Nat × BValue)

/-- Assignment `dict[key] = val` on a Go map: replace the value of an
existing key, otherwise add the key. -/
def goMapSet : GoMap → List Nat → BValue → GoMap
  | [], k, v => [(k, v)]
  | (k0, v0) :: rest, k, v =>
    if k0 = k then (k0, v) :: rest else (k0, v0) :: goMapSet rest k v

/-- Go map lookup `dict[key]`. -/
def goLookup : GoMap → List Nat → Option BValue
  | [], _ => none
  | (k0, v0) :: rest, k => if k0 = k then some v0 else goLookup rest k

/-- The three recursive activities of the parser: `parseVal` dispatch, the
`parseList` loop (carrying the opening delimiter position and the values
accumulated so far) and the `parseDict` loop (likewise, accumulating the
map). -/
inductive PTask where
  | val
  | listLoop (start : Nat) (acc : List BValue)
  | dictLoop (start : Nat) (acc : GoMap)

/-- The recursive core of the parser of `src/unnamed/part_000`:
`parseVal` (lines 204-219) dispatches on the leading byte (`d` = 100,
`l` = 108, `i` = 105, anything else to `parseStr`); the `listLoop` and
`dictLoop` tasks are the loops of `parseList` (lines 143-168) and
`parseDict` (lines 171-201), which first check for running off the end of
the buffer (the unmatched-delimiter error), then for the closing `e`
(byte 101), and otherwise parse one element (for dictionaries a string key
then any value, stored with `dict[key] = val`).  Reading `p.enc[p.i]` in
`parseVal` with the cursor at or past the end of the buffer is a Go panic. -/
def parseF : Nat → PTask → List Nat → Nat → PRes BValue
  | 0, _, _, _ => .out
  | f + 1, .val, enc, i =>
    if h : i < enc.length then
      if enc[i] = 100 then parseF f (.dictLoop i []) enc (i + 1)
      else if enc[i] = 108 then parseF f (.listLoop i []) enc (i + 1)
      else if enc[i] = 105 then (parseInt enc i).mapv .int
      else (parseStr enc i).mapv .str
    else .panics
  | f + 1, .listLoop start acc, enc, i =>
    if h : i < enc.length then
      if enc[i] = 101 then .ok (.list acc) (i + 1)
      else
        match parseF f .val enc i with
        | .ok v j => parseF f (.listLoop start (acc ++ [v])) enc j
        | .err e => .err e
        | .panics => .panics
        | .out => .out
    else .err (errDelim 108 start)
  | f + 1, .dictLoop start acc, enc, i =>
    if h : i < enc.length then
      if enc[i] = 101 then .ok (.dict acc) (i + 1)
      else
        match parseStr enc i with
        | .ok key j =>
          match parseF f .val enc j with
          | .ok v j2 => parseF f (.dictLoop start (goMapSet acc key v)) enc j2
          | .err e => .err e
          | .panics => .panics
          | .out => .out
        | .err e => .err e
        | .panics => .panics
        | .out => .out
    else .err (errDelim 100 start)

/-- Fuel that is ample for any parse of `enc`: every recursive call of
`parseF` either consumes at least one byte or hands over from a dispatch to
a loop, so the recursion depth is below `2 * enc.length + 2`. -/
def stdFuel (enc : List Nat) : Nat := 2 * enc.length + 2

/-- Top-level `parseVal` on a fresh parser (`newParser` sets the cursor
to 0). -/
def parseValTop (enc : List Nat) : PRes BValue :=
  parseF (stdFuel enc) .val enc 0

/-- `(p *parser) parseDict()` called directly (as `ParseTorrent`,
`ParseMetaInfo` and `ParseTrackerResponse` do): checks the leading `d`
(byte 100, a panic when the buffer is empty), then runs the dictionary
loop.  The `.ok` branch that is not a dictionary cannot occur (the loop
only succeeds with a dictionary). -/
def parseDictF (fuel : Nat) (enc : List Nat) (i : Nat) : PRes GoMap :=
  if h : i < enc.length then
    if enc[i] ≠ 100 then .err (perr enc i .invalidDictionary (-1))
    else
      match parseF fuel (.dictLoop i []) enc (i + 1) with
      | .ok (.dict m) j => .ok m j
      | .ok _ _ => .panics
      | .err e => .err e
      | .panics => .panics
      | .out => .out
  else .panics

/-- Top-level `parseDict` on a fresh parser. -/
def parseDictTop (enc : List Nat) : PRes GoMap :=
  parseDictF (stdFuel enc) enc 0

/-! ## The encoder (`src/internal/benc/encode.go`) -/

/-- Little-endian decimal digits of `n` (empty for 0), fuel-driven; with fuel
at least `n` this is the full digit list. -/
def natDigitsRev : Nat → Nat → List Nat
  | 0, _ => []
  | f + 1, n => if n = 0 then [] else n % 10 :: natDigitsRev f (n / 10)

/-- Decimal ASCII representation of a natural number, as `fmt.Sprintf`
renders it: most significant digit first, `"0"` for zero, no leading
zeros. -/
def natAscii (n : Nat) : List Nat :=
  if n = 0 then [48] else ((natDigitsRev n n).map (fun d => d + 48)).reverse

/-- `encodeStr` of `src/internal/benc/encode.go`: decimal length, `:`
(byte 58), then the raw bytes. -/
def encodeStr (s : List Nat) : List Nat :=
  natAscii s.length ++ 58 :: s

/-- `encodeInt` of `src/internal/benc/encode.go`: `i` (105), the decimal
rendering of the integer (`-` = byte 45 for negatives), `e` (101). -/
def encodeInt (n : Int) : List Nat :=
  105 :: (if n < 0 then 45 :: natAscii (-n).toNat else natAscii n.toNat) ++ [101]

/-- `encodeVal` / `encodeList` / `encodeDict` of
`src/internal/benc/encode.go`.  A dictionary's entries are written in the
order of the entry list: `encodeDict` ranges over a Go map, whose iteration
order is unspecified, so the order in which a run of the program visits the
entries is made explicit by the caller (see the `ord` parameters below). -/
def encodeVal : BValue → List Nat
  | .str s => encodeStr s
  | .int n => encodeInt n
  | .list vs => 108 :: encList vs ++ [101]
  | .dict m => 100 :: encEntries m ++ [101]
where
  /-- Body of the `encodeList` loop. -/
  encList : List BValue → List Nat
    | [] => []
    | v :: rest => encodeVal v ++ encList rest
  /-- Body of the `encodeDict` loop: key as string, then the value. -/
  encEntries : GoMap → List Nat
    | [] => []
    | (k, v) :: rest => encodeStr k ++ encodeVal v ++ encEntries rest

/-! ## SHA-1 (`crypto/sha1`, used for the info-hash) -/

/-- Left rotation of a 32-bit word. -/
def rotl32 (k x : Nat) : Nat :=
  ((x <<< k) ||| (x >>> (32 - k))) % 2 ^ 32

/-- Big-endian 32-bit word from up to four bytes. -/
def word32 (bs : List Nat) : Nat :=
  bs.foldl (fun acc b => acc * 256 + b) 0

/-- Split a 64-byte block into 16 big-endian words (fuel-driven). -/
def chunkWords : Nat → List Nat → List Nat
  | 0, _ => []
  | _, [] => []
  | f + 1, l => word32 (l.take 4) :: chunkWords f (l.drop 4)

/-- Message-schedule extension: append `rotl1` of the xor of the words 3, 8,
14 and 16 positions back, `fuel` times (64 times for SHA-1). -/
def sha1Extend : Nat → List Nat → List Nat
  | 0, w => w
  | f + 1, w =>
    let k := w.length
    sha1Extend f
      (w ++ [rotl32 1 ((w.getD (k - 3) 0) ^^^ (w.getD (k - 8) 0) ^^^
        (w.getD (k - 14) 0) ^^^ (w.getD (k - 16) 0))])

/-- The 80 SHA-1 rounds over the extended schedule. -/
def sha1Rounds : List Nat → Nat → Nat × Nat × Nat × Nat × Nat → Nat × Nat × Nat × Nat × Nat
  | [], _, st => st
  | wt :: ws, t, (a, b, c, d, e) =>
    let fv :=
      if t < 20 then (b &&& c) ||| ((b ^^^ 4294967295) &&& d)
      else if t < 40 then b ^^^ c ^^^ d
      else if t < 60 then (b &&& c) ||| (b &&& d) ||| (c &&& d)
      else b ^^^ c ^^^ d
    let kv :=
      if t < 20 then 1518500249
      else if t < 40 then 1859775393
      else if t < 60 then 2400959708
      else 3395469782
    let temp := (rotl32 5 a + fv + e + kv + wt) % 2 ^ 32
    sha1Rounds ws (t + 1) (temp, a, rotl32 30 b, c, d)

/-- Big-endian 64-bit rendering of the message bit length. -/
def be64 (n : Nat) : List Nat :=
  [(n >>> 56) % 256, (n >>> 48) % 256, (n >>> 40) % 256, (n >>> 32) % 256,
   (n >>> 24) % 256, (n >>> 16) % 256, (n >>> 8) % 256, n % 256]

/-- SHA-1 padding: a `0x80` byte, zeros to 56 mod 64, then the bit length. -/
def sha1Pad (msg : List Nat) : List Nat :=
  let padLen := (56 + 64 - (msg.length + 1) % 64) % 64
  msg ++ 128 :: List.replicate padLen 0 ++ be64 (8 * msg.length)

/-- Big-endian bytes of one 32-bit word. -/
def word32Bytes (w : Nat) : List Nat :=
  [(w >>> 24) % 256, (w >>> 16) % 256, (w >>> 8) % 256, w % 256]

/-- Compression over the 64-byte blocks of the padded message. -/
def sha1Blocks : Nat → List Nat → Nat × Nat × Nat × Nat × Nat → Nat × Nat × Nat × Nat × Nat
  | 0, _, h => h
  | _, [], h => h
  | f + 1, msg, (h0, h1, h2, h3, h4) =>
    let w := sha1Extend 64 (chunkWords 16 (msg.take 64))
    match sha1Rounds w 0 (h0, h1, h2, h3, h4) with
    | (a, b, c, d, e) =>
      sha1Blocks f (msg.drop 64)
        ((h0 + a) % 2 ^ 32, (h1 + b) % 2 ^ 32, (h2 + c) % 2 ^ 32,
         (h3 + d) % 2 ^ 32, (h4 + e) % 2 ^ 32)

/-- `sha1.Sum`: the 20-byte SHA-1 digest of a byte sequence. -/
def sha1 (msg : List Nat) : List Nat :=
  let p := sha1Pad msg
  match sha1Blocks (p.length / 64) p
      (1732584193, 4023233417, 2562383102, 271733878, 3285377520) with
  | (h0, h1, h2, h3, h4) =>
    word32Bytes h0 ++ word32Bytes h1 ++ word32Bytes h2 ++
      word32Bytes h3 ++ word32Bytes h4

/-! ## The metainfo projectors (`src/internal/benc/torrent.go` and
`src/internal/benc/metainfo.go`) -/

/-- Byte list of an ASCII string, for readable concrete inputs and keys. -/
def asciiBytes (s : String) : List Nat := s.toList.map Char.toNat

/-- The dictionary keys the projectors consume. -/
def kAnnounce : List Nat := asciiBytes "announce"

/-- Key of the info dictionary. -/
def kInfo : List Nat := asciiBytes "info"

/-- Key selecting multi-file mode. -/
def kFiles : List Nat := asciiBytes "files"

/-- Key of the name field. -/
def kName : List Nat := asciiBytes "name"

/-- Key of the pieces field. -/
def kPieces : List Nat := asciiBytes "pieces"

/-- Key of the piece length field (mapstructure tag "piece length"). -/
def kPieceLength : List Nat := asciiBytes "piece length"

/-- Key of the length field. -/
def kLength : List Nat := asciiBytes "length"

/-- Key of the path field of a multi-file entry. -/
def kPath : List Nat := asciiBytes "path"

/-- Key of the creation date field (mapstructure tag "creation date"). -/
def kCreationDate : List Nat := asciiBytes "creation date"

/-- Key of the created by field (mapstructure tag "created by"). -/
def kCreatedBy : List Nat := asciiBytes "created by"

/-- Key of the comment field. -/
def kComment : List Nat := asciiBytes "comment"

/-- `singleFileInfo` of `src/internal/benc/torrent.go` (zero values are the
Go zero values mapstructure leaves for absent keys). -/
structure SingleFileInfo where
  name : List Nat := []
  pieces : List Nat := []
  pieceLength : Nat := 0
  length : Nat := 0
deriving DecidableEq

/-- `file` of `src/internal/benc/torrent.go`. -/
structure FileEntry where
  path : List (List Nat) := []
  length : Nat := 0
deriving DecidableEq

/-- `multiFileInfo` of `src/internal/benc/torrent.go`. -/
structure MultiFileInfo where
  name : List Nat := []
  pieces : List Nat := []
  pieceLength : Nat := 0
  files : List FileEntry := []
deriving DecidableEq

/-- `Torrent` of `src/internal/benc/torrent.go`. -/
structure Torrent where
  infoHash : List Nat := []
  announce : List Nat := []
  creationDate : Int := 0
  createdBy : List Nat := []
  comment : List Nat := []
  singleFileMode : Bool := false
  singleInfo : SingleFileInfo := {}
  multiInfo : MultiFileInfo := {}
deriving DecidableEq

/-- `fileInfo` of `src/internal/benc/metainfo.go` (its `Length` and
`PieceLength` are Go `int`). -/
structure FileInfo where
  name : List Nat := []
  length : Int := 0
  pieceLength : Int := 0
  pieces : List Nat := []
deriving DecidableEq

/-- `MetaInfo` of `src/internal/benc/metainfo.go`. -/
structure MetaInfo where
  announce : List Nat := []
  info : FileInfo := {}
  infoHash : List Nat := []
  creationDate : Int := 0
  createdBy : List Nat := []
  comment : List Nat := []
deriving DecidableEq

/-- One field decoded into a Go `string` target by the mapstructure library:
an absent key leaves the zero value, a present string is taken, any other
kind is a decode error. -/
def msStr : Option BValue → Option (List Nat)
  | none => some []
  | some (.str s) => some s
  | some _ => none

/-- One field decoded into a Go `int`/`int64` target by mapstructure. -/
def msInt : Option BValue → Option Int
  | none => some 0
  | some (.int n) => some n
  | some _ => none

/-- One field decoded into a Go `uint64` target by mapstructure: a negative
integer overflows the unsigned target and is a decode error. -/
def msUint64 : Option BValue → Option Nat
  | none => some 0
  | some (.int n) => if n < 0 then none else some n.toNat
  | some _ => none

/-- Modelled from the behavior of `mapstructure.Decode(rawMetainfo,
torrent)` for the `Torrent` target of `src/internal/benc/torrent.go`:
the exported fields `Announce`, `CreationDate` (tag "creation date"),
`CreatedBy` (tag "created by") and `Comment` are filled from the
corresponding keys; keys the target does not consume (notably "info") are
ignored; unexported fields are ignored.  Restricted to the exact lower-case
keys of the torrent format (mapstructure matches case-insensitively) and to
inputs without an "infohash" key (none of the inputs considered has one). -/
def msDecodeTorrent (raw : GoMap) : Option Torrent :=
  match msStr (goLookup raw kAnnounce), msInt (goLookup raw kCreationDate),
      msStr (goLookup raw kCreatedBy), msStr (goLookup raw kComment) with
  | some a, some cd, some cb, some cm =>
    some { announce := a, creationDate := cd, createdBy := cb, comment := cm }
  | _, _, _, _ => none

/-- Mapstructure decode of the `singleFileInfo` target. -/
def msDecodeSingle (info : GoMap) : Option SingleFileInfo :=
  match msStr (goLookup info kName), msStr (goLookup info kPieces),
      msUint64 (goLookup info kPieceLength), msUint64 (goLookup info kLength) with
  | some n, some p, some pl, some l =>
    some { name := n, pieces := p, pieceLength := pl, length := l }
  | _, _, _, _ => none

/-- Mapstructure decode of a `[]string` path list. -/
def msStrList : List BValue → Option (List (List Nat))
  | [] => some []
  | .str s :: rest => (msStrList rest).map (fun l => s :: l)
  | _ => none

/-- Mapstructure decode of the `Path []string` field. -/
def msPathList : Option BValue → Option (List (List Nat))
  | none => some []
  | some (.list vs) => msStrList vs
  | some _ => none

/-- Mapstructure decode of one `file` entry of the `Files` list. -/
def msDecodeFile : BValue → Option FileEntry
  | .dict d =>
    match msPathList (goLookup d kPath), msUint64 (goLookup d kLength) with
    | some ps, some l => some { path := ps, length := l }
    | _, _ => none
  | _ => none

/-- Mapstructure decode of the elements of the `Files` list. -/
def msFiles : List BValue → Option (List FileEntry)
  | [] => some []
  | v :: rest =>
    match msDecodeFile v, msFiles rest with
    | some f, some fs => some (f :: fs)
    | _, _ => none

/-- Mapstructure decode of the `Files []file` field. -/
def msFileList : Option BValue → Option (List FileEntry)
  | none => some []
  | some (.list vs) => msFiles vs
  | some _ => none

/-- Mapstructure decode of the `multiFileInfo` target. -/
def msDecodeMulti (info : GoMap) : Option MultiFileInfo :=
  match msStr (goLookup info kName), msStr (goLookup info kPieces),
      msUint64 (goLookup info kPieceLength), msFileList (goLookup info kFiles) with
  | some n, some p, some pl, some fs =>
    some { name := n, pieces := p, pieceLength := pl, files := fs }
  | _, _, _, _ => none

/-- Mapstructure decode of the `fileInfo` target of
`src/internal/benc/metainfo.go` (fields `Name`, `Length`, `PieceLength`
with tag "piece length", `Pieces`). -/
def msDecodeFileInfo : Option BValue → Option FileInfo
  | none => some {}
  | some (.dict d) =>
    match msStr (goLookup d kName), msInt (goLookup d kLength),
        msInt (goLookup d kPieceLength), msStr (goLookup d kPieces) with
    | some n, some l, some pl, some p =>
      some { name := n, length := l, pieceLength := pl, pieces := p }
    | _, _, _, _ => none
  | some _ => none

/-- Mapstructure decode of the `MetaInfo` target of
`src/internal/benc/metainfo.go`. -/
def msDecodeMetaInfo (raw : GoMap) : Option MetaInfo :=
  match msStr (goLookup raw kAnnounce), msDecodeFileInfo (goLookup raw kInfo),
      msInt (goLookup raw kCreationDate), msStr (goLookup raw kCreatedBy),
      msStr (goLookup raw kComment) with
  | some a, some fi, some cd, some cb, some cm =>
    some { announce := a, info := fi, creationDate := cd,
           createdBy := cb, comment := cm }
  | _, _, _, _, _ => none

/-- The error returns of the projectors, one constructor per `fmt.Errorf`
site: `parse` wraps a parser error returned unchanged; `malformedTorrent`
is "[!] Malformed torrent file" (a mapstructure failure);
`noInfoField` is "[!] No info field present in the torrent";
`infoNotDict` is "[!] Info field must be a dictionary";
`malformedMultiInfo` and `malformedSingleInfo` are the two
"[!] Malformed multi-file info field" returns of the mode branches. -/
inductive TErr where
  | parse (e : PError)
  | malformedTorrent
  | noInfoField
  | infoNotDict
  | malformedMultiInfo
  | malformedSingleInfo
deriving DecidableEq

/-- Result of a projector call: a value, a returned `error`, or a Go
run-time panic; `out` propagates the (unreachable) fuel exhaustion of the
embedding. -/
inductive MRes (α : Type) where
  | ok : α → MRes α
  | err : TErr → MRes α
  | panics : MRes α
  | out : MRes α

deriving instance DecidableEq for MRes

/-- `ParseTorrent` of `src/internal/benc/torrent.go`, lines 69-112: parse a
raw dictionary, fill the non-info fields via mapstructure, extract and
type-check the `info` field, choose the mode by the presence of
`info["files"]`, decode the matching info struct, and finally hash the
canonical re-encoding of the info dictionary.  `ord` is the iteration order
in which this run of the Go program happens to range over the info map
inside `encodeDict`; any permutation of the entries can occur. -/
def ParseTorrent (fileContents : List Nat) (ord : GoMap → GoMap) : MRes Torrent :=
  match parseDictTop fileContents with
  | .err e => .err (.parse e)
  | .panics => .panics
  | .out => .out
  | .ok rawMetainfo _ =>
    match msDecodeTorrent rawMetainfo with
    | none => .err .malformedTorrent
    | some t0 =>
      match goLookup rawMetainfo kInfo with
      | none => .err .noInfoField
      | some rawInfo =>
        match rawInfo with
        | .dict info =>
          if (goLookup info kFiles).isSome then
            match msDecodeMulti info with
            | none => .err .malformedMultiInfo
            | some mi =>
              .ok { t0 with
                    singleFileMode := false
                    multiInfo := mi
                    infoHash := sha1 (encodeVal (.dict (ord info))) }
          else
            match msDecodeSingle info with
            | none => .err .malformedSingleInfo
            | some si =>
              .ok { t0 with
                    singleFileMode := true
                    singleInfo := si
                    infoHash := sha1 (encodeVal (.dict (ord info))) }
        | _ => .err .infoNotDict

/-- `ParseMetaInfo` of `src/internal/benc/metainfo.go`, lines 52-69: parse a
raw dictionary, fill the `MetaInfo` fields via mapstructure, then compute
the info-hash from `rawMetaInfo["info"].(map[string]any)`.  That type
assertion is not comma-ok: when the `info` key is absent (the lookup yields
a nil `any`) or holds a non-dictionary, the assertion panics. -/
def ParseMetaInfo (fileContents : List Nat) (ord : GoMap → GoMap) : MRes MetaInfo :=
  match parseDictTop fileContents with
  | .err e => .err (.parse e)
  | .panics => .panics
  | .out => .out
  | .ok rawMetaInfo _ =>
    match msDecodeMetaInfo rawMetaInfo with
    | none => .err .malformedTorrent
    | some m0 =>
      match goLookup rawMetaInfo kInfo with
      | some (.dict info) =>
        .ok { m0 with infoHash := sha1 (encodeVal (.dict (ord info))) }
      | _ => .panics

/-! ## Helper projections and concrete inputs used by the statements -/

set_option maxRecDepth 400000

/-- The info-hash of a successful projection. -/
def infoHashOf : MRes Torrent → Option (List Nat)
  | .ok t => some t.infoHash
  | _ => none

/-- The pieces length of the active mode of a successful projection. -/
def piecesLenOf : MRes Torrent → Option Nat
  | .ok t => some (if t.singleFileMode then t.singleInfo.pieces.length
                   else t.multiInfo.pieces.length)
  | _ => none

/-- The mode flag of a successful projection. -/
def modeOf : MRes Torrent → Option Bool
  | .ok t => some t.singleFileMode
  | _ => none

/-- The iteration order of a run that happens to visit a map's entries in
insertion order. -/
def idOrder : GoMap → GoMap := fun m => m

/-- Concrete torrent whose info dictionary has two keys:
`"d8:announce3:url4:infod1:ai1e1:bi2eee"`. -/
def hashOrderIn : List Nat := asciiBytes "d8:announce3:url4:infod1:ai1e1:bi2eee"

/-- The contents of that torrent's info map: `a` maps to 1, `b` to 2. -/
def abInfo : GoMap := [([97], .int 1), ([98], .int 2)]

/-- Concrete canonical dictionary bytes `"d1:ai1e1:bi2ee"`. -/
def rtIn : List Nat := asciiBytes "d1:ai1e1:bi2ee"

/-- The truncated string token of claim C3: `"4:abc"` declares four bytes
but only three remain. -/
def truncIn : List Nat := asciiBytes "4:abc"

/-- A torrent file containing such a token: `"d1:s5:abce"` (its value token
`"5:abce"` declares five bytes with four remaining). -/
def truncTorrentIn : List Nat := asciiBytes "d1:s5:abce"

/-- A well-formed torrent dictionary without an `info` key:
`"d8:announce4:abcde"`. -/
def noInfoIn : List Nat := asciiBytes "d8:announce4:abcde"

/-- A single-file torrent whose `pieces` string has five bytes. -/
def shortPiecesIn : List Nat :=
  asciiBytes "d8:announce3:url4:infod4:name5:a.txt6:lengthi10e12:piece lengthi16384e6:pieces5:AAAAAee"

/-- A well-formed single-file torrent (valid 20-byte pieces string). -/
def tfEx : List Nat :=
  asciiBytes "d8:announce19:http://tracker.test4:infod4:name5:a.txt6:lengthi10e12:piece lengthi16384e6:pieces20:AAAAAAAAAAAAAAAAAAAAee"

/-- The torrent of a successful projection (dummy default otherwise). -/
def resTorrent : MRes Torrent → Torrent
  | .ok t => t
  | _ => {}

/-- The map of a successful dictionary parse (dummy default otherwise). -/
def resMap : PRes GoMap → GoMap
  | .ok m _ => m
  | _ => []

/-- The final cursor of a successful dictionary parse. -/
def resPos : PRes GoMap → Nat
  | .ok _ j => j
  | _ => 0

/-- The info dictionary found inside a raw metainfo map. -/
def infoDictOf (raw : GoMap) : GoMap :=
  match goLookup raw kInfo with
  | some (.dict m) => m
  | _ => []

/-! ## Supporting lemmas about `indexByte`, `fromAscii`, `perr` and the
stability of the parser under appending input -/

/-- `indexByte` misses a byte that does not occur. -/
theorem indexByte_eq_none {xs : List Nat} {c : Nat} (h : c ∉ xs) :
    indexByte xs c = none := by
  induction xs with
  | nil => rfl
  | cons b rest ih =>
    have hb : ¬ b = c := fun hbc => h (by simp [hbc])
    have hr : c ∉ rest := fun hc => h (List.mem_cons_of_mem _ hc)
    simp [indexByte, hb, ih hr]

/-- `indexByte` finds the first occurrence after a clean prefix. -/
theorem indexByte_append_not_mem (xs : List Nat) (c : Nat) (h : c ∉ xs)
    (ys : List Nat) : indexByte (xs ++ c :: ys) c = some xs.length := by
  induction xs with
  | nil => simp [indexByte]
  | cons b rest ih =>
    have hb : ¬ b = c := fun hbc => h (by simp [hbc])
    have hr : c ∉ rest := fun hc => h (List.mem_cons_of_mem _ hc)
    simp [indexByte, hb, ih hr]

/-- A successful `indexByte` yields an index inside the list. -/
theorem indexByte_lt_length {xs : List Nat} {c k : Nat}
    (h : indexByte xs c = some k) : k < xs.length := by
  induction xs generalizing k with
  | nil => simp [indexByte] at h
  | cons b rest ih =>
    rw [indexByte] at h
    split at h
    · cases h; simp
    · obtain ⟨k1, hk1, hk⟩ := Option.map_eq_some'.mp h
      have := ih hk1
      simp only [List.length_cons]
      omega

/-- A successful `indexByte` is preserved by appending further input. -/
theorem indexByte_append_left {xs : List Nat} {c k : Nat} (ys : List Nat)
    (h : indexByte xs c = some k) : indexByte (xs ++ ys) c = some k := by
  induction xs generalizing k with
  | nil => simp [indexByte] at h
  | cons b rest ih =>
    rw [indexByte] at h
    rw [List.cons_append, indexByte]
    by_cases hb : b = c
    · rw [if_pos hb] at h ⊢; exact h
    · rw [if_neg hb] at h ⊢
      obtain ⟨k1, hk1, hk⟩ := Option.map_eq_some'.mp h
      rw [ih hk1]
      simp [hk]

/-- A span containing a non-digit byte makes the `fromAscii` loop fail. -/
theorem fromAsciiRev_eq_none {xs : List Nat}
    (hbad : ∃ b ∈ xs, b < 48 ∨ 57 < b) :
    ∀ num exp, fromAsciiRev xs num exp = none := by
  induction xs with
  | nil => simp at hbad
  | cons b rest ih =>
    intro num exp
    by_cases hb : b < 48 ∨ 57 < b
    · simp [fromAsciiRev, hb]
    · rw [fromAsciiRev, if_neg hb]
      apply ih
      obtain ⟨x, hx, hxb⟩ := hbad
      rcases List.mem_cons.mp hx with rfl | hxr
      · exact absurd hxb hb
      · exact ⟨x, hxr, hxb⟩

/-- A span containing a non-digit byte makes `fromAscii` return the failure
flag. -/
theorem fromAscii_eq_none (span : List Nat)
    (hbad : ∃ b ∈ span, b < 48 ∨ 57 < b) : fromAscii span = none := by
  obtain ⟨x, hx, h2⟩ := hbad
  exact fromAsciiRev_eq_none ⟨x, List.mem_reverse.mpr hx, h2⟩ 0 1

/-- `perr` at a nonnegative end position. -/
theorem perr_natCast (enc : List Nat) (i : Nat) (r : PReason) (n : Nat) :
    perr enc i r (n : Int) = ⟨r, (enc.take n).drop i, i + 1⟩ := by
  unfold perr
  rw [if_neg (not_lt.mpr (Int.natCast_nonneg n))]
  simp

/-- A successful `parseStr` ends inside the buffer and is unchanged by
appending further bytes after the buffer. -/
theorem parseStr_ext {b : List Nat} {i j : Nat} {s : List Nat} (t : List Nat)
    (h : parseStr b i = .ok s j) :
    j ≤ b.length ∧ parseStr (b ++ t) i = .ok s j := by
  unfold parseStr at h ⊢
  cases hix : indexByte (b.drop i) 58 with
  | none => rw [hix] at h; cases h
  | some ci =>
    rw [hix] at h
    dsimp only at h
    have hci : ci < (b.drop i).length := indexByte_lt_length hix
    have hib : i < b.length := by rw [List.length_drop] at hci; omega
    rw [List.drop_append_of_le_length (le_of_lt hib), indexByte_append_left t hix]
    dsimp only
    rw [List.take_append_of_le_length (le_of_lt hci)]
    rw [List.length_drop] at hci
    cases hfa : fromAscii ((b.drop i).take ci) with
    | none => rw [hfa] at h; dsimp only at h; cases h
    | some n =>
      rw [hfa] at h
      dsimp only at h
      dsimp only
      split at h
      · cases h
      · next hn =>
        split at h
        · cases h
        · next hlen =>
          rw [if_neg hn, if_neg (show ¬ (b ++ t).length < i + ci + 1 + n.toNat by
              rw [List.length_append]; omega)]
          rw [List.drop_append_of_le_length (show i + ci + 1 ≤ b.length by omega),
            List.take_append_of_le_length (by rw [List.length_drop]; omega)]
          cases h
          exact ⟨by omega, rfl⟩

/-- A successful `parseInt` ends inside the buffer and is unchanged by
appending further bytes after the buffer. -/
theorem parseInt_ext {b : List Nat} {i j : Nat} {v : Int} (t : List Nat)
    (h : parseInt b i = .ok v j) :
    j ≤ b.length ∧ parseInt (b ++ t) i = .ok v j := by
  unfold parseInt at h ⊢
  split at h
  case isFalse => cases h
  case isTrue hib =>
  rw [dif_pos (show i < (b ++ t).length by rw [List.length_append]; omega)]
  rw [List.getElem_append_left hib]
  split at h
  · cases h
  · next hi105 =>
    rw [if_neg hi105]
    cases hix : indexByte (b.drop i) 101 with
    | none => rw [hix] at h; cases h
    | some e1 =>
      rw [hix] at h
      dsimp only at h
      have he1 : e1 < (b.drop i).length := indexByte_lt_length hix
      rw [List.length_drop] at he1
      rw [List.drop_append_of_le_length (le_of_lt hib), indexByte_append_left t hix]
      dsimp only
      rw [List.drop_append_of_le_length (show i + 1 ≤ b.length by omega),
        List.take_append_of_le_length (by rw [List.length_drop]; omega)]
      cases hfa : fromAscii ((b.drop (i + 1)).take (e1 - 1)) with
      | none => rw [hfa] at h; dsimp only at h; cases h
      | some num =>
        rw [hfa] at h
        dsimp only at h
        dsimp only
        cases h
        exact ⟨by omega, rfl⟩

/-- A successful `parseF` on any task ends inside the buffer and is
unchanged by appending further bytes after the buffer: on the success path
every scan and slice stays inside the originally consumed region. -/
theorem parseF_ext (t : List Nat) :
    ∀ f task b i v j, parseF f task b i = .ok v j →
      j ≤ b.length ∧ parseF f task (b ++ t) i = .ok v j := by
  intro f
  induction f with
  | zero => intro task b i v j h; cases h
  | succ f ih =>
    intro task b i v j h
    cases task with
    | val =>
      rw [parseF] at h
      split at h
      case isFalse => cases h
      case isTrue hib =>
      rw [parseF, dif_pos (show i < (b ++ t).length by rw [List.length_append]; omega),
        List.getElem_append_left hib]
      split at h
      case isTrue h100 =>
        rw [if_pos h100]
        exact ih _ _ _ _ _ h
      case isFalse h100 =>
        rw [if_neg h100]
        split at h
        case isTrue h108 =>
          rw [if_pos h108]
          exact ih _ _ _ _ _ h
        case isFalse h108 =>
          rw [if_neg h108]
          split at h
          case isTrue h105 =>
            rw [if_pos h105]
            cases hpi : parseInt b i with
            | ok n j2 =>
              rw [hpi] at h
              dsimp only [PRes.mapv] at h
              obtain ⟨hle, hext⟩ := parseInt_ext t hpi
              rw [hext]
              cases h
              exact ⟨hle, rfl⟩
            | err e => rw [hpi] at h; dsimp only [PRes.mapv] at h; cases h
            | panics => rw [hpi] at h; dsimp only [PRes.mapv] at h; cases h
            | out => rw [hpi] at h; dsimp only [PRes.mapv] at h; cases h
          case isFalse h105 =>
            rw [if_neg h105]
            cases hps : parseStr b i with
            | ok s j2 =>
              rw [hps] at h
              dsimp only [PRes.mapv] at h
              obtain ⟨hle, hext⟩ := parseStr_ext t hps
              rw [hext]
              cases h
              exact ⟨hle, rfl⟩
            | err e => rw [hps] at h; dsimp only [PRes.mapv] at h; cases h
            | panics => rw [hps] at h; dsimp only [PRes.mapv] at h; cases h
            | out => rw [hps] at h; dsimp only [PRes.mapv] at h; cases h
    | listLoop start acc =>
      rw [parseF] at h
      split at h
      case isFalse hib => cases h
      case isTrue hib =>
      rw [parseF, dif_pos (show i < (b ++ t).length by rw [List.length_append]; omega),
        List.getElem_append_left hib]
      split at h
      case isTrue h101 =>
        rw [if_pos h101]
        cases h
        exact ⟨by omega, rfl⟩
      case isFalse h101 =>
        rw [if_neg h101]
        cases hv : parseF f .val b i with
        | ok v1 j1 =>
          rw [hv] at h
          dsimp only at h
          obtain ⟨hle1, hext1⟩ := ih .val b i v1 j1 hv
          rw [hext1]
          dsimp only
          exact ih _ _ _ _ _ h
        | err e => rw [hv] at h; dsimp only at h; cases h
        | panics => rw [hv] at h; dsimp only at h; cases h
        | out => rw [hv] at h; dsimp only at h; cases h
    | dictLoop start acc =>
      rw [parseF] at h
      split at h
      case isFalse hib => cases h
      case isTrue hib =>
      rw [parseF, dif_pos (show i < (b ++ t).length by rw [List.length_append]; omega),
        List.getElem_append_left hib]
      split at h
      case isTrue h101 =>
        rw [if_pos h101]
        cases h
        exact ⟨by omega, rfl⟩
      case isFalse h101 =>
        rw [if_neg h101]
        cases hk : parseStr b i with
        | ok key j1 =>
          rw [hk] at h
          dsimp only at h
          obtain ⟨hlek, hextk⟩ := parseStr_ext t hk
          rw [hextk]
          dsimp only
          cases hv : parseF f .val b j1 with
          | ok v1 j2 =>
            rw [hv] at h
            dsimp only at h
            obtain ⟨hle1, hext1⟩ := ih .val b j1 v1 j2 hv
            rw [hext1]
            dsimp only
            exact ih _ _ _ _ _ h
          | err e => rw [hv] at h; dsimp only at h; cases h
          | panics => rw [hv] at h; dsimp only at h; cases h
          | out => rw [hv] at h; dsimp only at h; cases h
        | err e => rw [hk] at h; dsimp only at h; cases h
        | panics => rw [hk] at h; dsimp only at h; cases h
        | out => rw [hk] at h; dsimp only at h; cases h

/-- More fuel never changes a successful `parseF` run. -/
theorem parseF_mono :
    ∀ f g task b i v j, f ≤ g → parseF f task b i = .ok v j →
      parseF g task b i = .ok v j := by
  intro f
  induction f with
  | zero => intro g task b i v j _ h; cases h
  | succ f ih =>
    intro g task b i v j hfg h
    cases g with
    | zero => omega
    | succ g =>
    have hfg2 : f ≤ g := by omega
    cases task with
    | val =>
      rw [parseF] at h ⊢
      split at h
      case isFalse hib => rw [dif_neg hib]; exact h
      case isTrue hib =>
      rw [dif_pos hib]
      split at h
      case isTrue h100 =>
        rw [if_pos h100]
        exact ih g _ _ _ _ _ hfg2 h
      case isFalse h100 =>
        rw [if_neg h100]
        split at h
        case isTrue h108 =>
          rw [if_pos h108]
          exact ih g _ _ _ _ _ hfg2 h
        case isFalse h108 =>
          rw [if_neg h108]
          split at h
          case isTrue h105 => rw [if_pos h105]; exact h
          case isFalse h105 => rw [if_neg h105]; exact h
    | listLoop start acc =>
      rw [parseF] at h ⊢
      split at h
      case isFalse hib => rw [dif_neg hib]; exact h
      case isTrue hib =>
      rw [dif_pos hib]
      split at h
      case isTrue h101 => rw [if_pos h101]; exact h
      case isFalse h101 =>
        rw [if_neg h101]
        cases hv : parseF f .val b i with
        | ok v1 j1 =>
          rw [hv] at h
          dsimp only at h
          rw [ih g _ _ _ _ _ hfg2 hv]
          dsimp only
          exact ih g _ _ _ _ _ hfg2 h
        | err e => rw [hv] at h; dsimp only at h; cases h
        | panics => rw [hv] at h; dsimp only at h; cases h
        | out => rw [hv] at h; dsimp only at h; cases h
    | dictLoop start acc =>
      rw [parseF] at h ⊢
      split at h
      case isFalse hib => rw [dif_neg hib]; exact h
      case isTrue hib =>
      rw [dif_pos hib]
      split at h
      case isTrue h101 => rw [if_pos h101]; exact h
      case isFalse h101 =>
        rw [if_neg h101]
        cases hk : parseStr b i with
        | ok key j1 =>
          rw [hk] at h
          dsimp only at h ⊢
          cases hv : parseF f .val b j1 with
          | ok v1 j2 =>
            rw [hv] at h
            dsimp only at h
            rw [ih g _ _ _ _ _ hfg2 hv]
            dsimp only
            exact ih g _ _ _ _ _ hfg2 h
          | err e => rw [hv] at h; dsimp only at h; cases h
          | panics => rw [hv] at h; dsimp only at h; cases h
          | out => rw [hv] at h; dsimp only at h; cases h
        | err e => rw [hk] at h; dsimp only at h; cases h
        | panics => rw [hk] at h; dsimp only at h; cases h
        | out => rw [hk] at h; dsimp only at h; cases h

/-! ## The claims -/

/-- Claim C1: the claim states that the computed InfoHash is deterministic
across runs and independent of input key order, equalling the SHA-1 of the
canonical re-encoding of the info dictionary.  This fails on the code:
`encodeDict` ranges over a Go map, whose iteration order is unspecified and
varies between runs, and no canonical reordering is applied.  Two runs of
`ParseTorrent` on the same input bytes, one visiting the two-entry info map
in insertion order and one in the reverse order (both orders are
permutations of the same map contents, hence both can occur), compute
different 20-byte digests. -/
theorem infoHash_depends_on_map_iteration_order :
    List.Perm (List.reverse abInfo) abInfo ∧
    infoHashOf (ParseTorrent hashOrderIn idOrder) =
      some (sha1 (encodeVal (.dict abInfo))) ∧
    infoHashOf (ParseTorrent hashOrderIn List.reverse) =
      some (sha1 (encodeVal (.dict (List.reverse abInfo)))) ∧
    infoHashOf (ParseTorrent hashOrderIn idOrder) ≠
      infoHashOf (ParseTorrent hashOrderIn List.reverse) :=
  ⟨List.reverse_perm abInfo, rfl, rfl, by decide⟩

/-- Claim C2: the claim states `encode(decode(b)) == b` for every
well-formed canonical `b`, for all four value variants including
dictionaries.  This fails on the code in two ways.  For the canonical
dictionary `"d1:ai1e1:bi2ee"`, decoding yields the two-entry map and
re-encoding reproduces the input only when the run's map iteration order
happens to match the original key order; under the reversed order (an
equally possible iteration of the same map) the re-encoding differs from
`b`.  Moreover for the canonical negative integer `"i-1e"` decoding fails
outright (`fromAscii` accepts only digit bytes), so no round trip exists. -/
theorem roundtrip_broken_by_iteration_order :
    parseValTop rtIn = .ok (.dict abInfo) rtIn.length ∧
    encodeVal (.dict abInfo) = rtIn ∧
    List.Perm (List.reverse abInfo) abInfo ∧
    encodeVal (.dict (List.reverse abInfo)) ≠ rtIn ∧
    encodeVal (.int (-1)) = asciiBytes "i-1e" ∧
    parseValTop (asciiBytes "i-1e") =
      .err ⟨.invalidIntegerValue, asciiBytes "i-1e", 1⟩ :=
  ⟨rfl, rfl, List.reverse_perm abInfo, by decide, rfl, rfl⟩

/-- Claim C3: the claim states that decoding never panics and that a string
token whose declared length exceeds the remaining input returns a
truncation error.  This fails on the code: `parseStr` computes
`p.enc[p.i : p.i+n]` without checking `n` against the remaining length, so
`"4:abc"` makes the Go slice expression panic (index out of range), both
when `parseStr` is called directly and through `parseVal`, and the panic
reaches the public entry points `ParseTorrent` and `ParseMetaInfo`
(shown on the torrent `"d1:s5:abce"`, whose value token `"5:abce"`
declares five bytes with four remaining).  The empty input also panics:
`parseDict` reads `p.enc[p.i]` without a bounds check. -/
theorem truncated_string_token_panics :
    parseStr truncIn 0 = .panics ∧
    parseValTop truncIn = .panics ∧
    ParseTorrent truncTorrentIn idOrder = .panics ∧
    ParseMetaInfo truncTorrentIn idOrder = .panics ∧
    ParseTorrent [] idOrder = .panics :=
  ⟨rfl, rfl, by decide, by decide, by decide⟩

/-- Claim C4: the claim states that both `ParseTorrent` and `ParseMetaInfo`
return a missing-or-malformed-info error when `info` is absent or not a
dictionary.  `ParseTorrent` does (its two error returns are modelled by
`noInfoField` and `infoNotDict`), but `ParseMetaInfo` does not: after a
successful mapstructure decode it evaluates
`rawMetaInfo["info"].(map[string]any)` without the comma-ok form, and when
`info` is absent the lookup yields a nil `any` whose type assertion
panics. -/
theorem parseMetaInfo_missing_info_panics :
    ParseMetaInfo noInfoIn idOrder = .panics ∧
    ParseTorrent noInfoIn idOrder = .err .noInfoField ∧
    ParseTorrent (asciiBytes "d8:announce3:url4:info2:xxe") idOrder =
      .err .infoNotDict :=
  ⟨by decide, by decide, by decide⟩

/-- Claim C5: the claim states that a `pieces` string whose length is not a
multiple of 20 is rejected with an `InvalidPieceLength` error.  No such
check exists anywhere in `ParseTorrent` (nor in `ParseMetaInfo`): the
single-file torrent above, whose `pieces` has length 5, is accepted and
projected to a descriptor. -/
theorem pieces_length_multiple_of_20_not_checked :
    piecesLenOf (ParseTorrent shortPiecesIn idOrder) = some 5 ∧
    modeOf (ParseTorrent shortPiecesIn idOrder) = some true ∧
    ¬ (20 ∣ 5) :=
  ⟨by decide, by decide, by decide⟩

/-- Claim C6: the claim states `decode(encode(Integer(n))) == Integer(n)`
for every 64-bit `n`, including negatives.  This fails on the code for
every negative `n`: `encodeInt` renders `-1` as `"i-1e"`, but the decoder's
`fromAscii` accepts only digit bytes, so the minus sign makes `parseInt`
return the invalid-integer-value error instead of `Integer(-1)` (the
legacy strconv-based `Parser.ParseInt` of `src/parse.go` would accept it;
the parser actually used by the projectors does not).  Non-negative values
round-trip, and zero is rendered canonically as `"i0e"`. -/
theorem negative_integer_roundtrip_fails :
    encodeVal (.int (-1)) = asciiBytes "i-1e" ∧
    parseValTop (encodeVal (.int (-1))) =
      .err ⟨.invalidIntegerValue, asciiBytes "i-1e", 1⟩ ∧
    parseValTop (encodeVal (.int 42)) = .ok (.int 42) 4 ∧
    encodeVal (.int 0) = asciiBytes "i0e" ∧
    parseValTop (encodeVal (.int 0)) = .ok (.int 0) 3 :=
  ⟨rfl, rfl, rfl, rfl, rfl⟩

/-- Claim C7 (counterexample): the claim states that a digit span with a
leading zero, such as `"i03e"`, fails with the invalid-integer-value error.
It does not: `fromAscii` imposes no leading-zero restriction, so `"i03e"`
parses successfully to the integer 3. -/
theorem leading_zero_integer_accepted :
    parseInt (asciiBytes "i03e") 0 = .ok 3 4 ∧
    parseValTop (asciiBytes "i03e") = .ok (.int 3) 4 :=
  ⟨by decide, rfl⟩

/-- Claim C7 (amended): for every integer token whose span between `i` and
the terminating `e` contains any byte outside the digits — which includes
the span `"-0"`, since the minus sign itself is a non-digit — `parseInt`
fails with the invalid-integer-value error; when no `e` occurs at all it
fails instead with the unmatched-delimiter error naming `i`; and the two
error kinds are distinct.  (The original claim also demanded failure on
digit-only spans with a leading zero, which the code accepts, see the
counterexample `"i03e"`.) -/
theorem nondigit_integer_span_rejected (span rest : List Nat)
    (hbad : ∃ b ∈ span, b < 48 ∨ 57 < b) (hne : 101 ∉ span) :
    parseInt (105 :: span ++ 101 :: rest) 0 =
      .err ⟨.invalidIntegerValue, 105 :: span ++ [101], 1⟩ ∧
    parseInt (105 :: span) 0 = .err (errDelim 105 0) ∧
    PReason.invalidIntegerValue ≠ PReason.unmatchedDelim 105 := by
  refine ⟨?_, ?_, by simp⟩
  · have hidx : indexByte (105 :: span ++ 101 :: rest) 101 = some (span.length + 1) := by
      rw [show (105 : Nat) :: span ++ 101 :: rest = (105 :: span) ++ 101 :: rest by simp,
        indexByte_append_not_mem (105 :: span) 101 (by simp [hne]) rest]
      simp
    have hspan : ((105 :: span ++ 101 :: rest).drop (0 + 1)).take (span.length + 1 - 1) = span := by
      have h1 : (105 :: span ++ 101 :: rest).drop (0 + 1) = span ++ 101 :: rest := rfl
      rw [h1, Nat.add_sub_cancel, List.take_append_of_le_length (le_refl span.length),
        List.take_length]
    unfold parseInt
    rw [dif_pos (by simp)]
    rw [if_neg (by simp)]
    rw [List.drop_zero, hidx]
    dsimp only
    rw [hspan, fromAscii_eq_none span hbad]
    dsimp only
    rw [show ((0 : Nat) : Int) + ((span.length + 1 : Nat) : Int) + 1 = ((span.length + 2 : Nat) : Int) by push_cast; ring]
    rw [perr_natCast]
    rw [show (105 : Nat) :: span ++ 101 :: rest = (105 :: span ++ [101]) ++ rest by simp]
    rw [show span.length + 2 = (105 :: span ++ [101]).length by simp]
    rw [List.take_left, List.drop_zero]
  · unfold parseInt
    rw [dif_pos (by simp)]
    rw [if_neg (by simp)]
    rw [List.drop_zero, indexByte_eq_none (by simp [hne] : (101 : Nat) ∉ 105 :: span)]

/-- Witness for the amended claim C7, at the span `"-0"` (bytes 45, 48):
the input `"i-0e"` yields the invalid-integer-value error, `"i-0"` the
unmatched-delimiter error. -/
theorem nondigit_integer_span_rejected_witness :
    parseInt (105 :: [45, 48] ++ 101 :: []) 0 =
      .err ⟨.invalidIntegerValue, 105 :: [45, 48] ++ [101], 1⟩ ∧
    parseInt (105 :: [45, 48]) 0 = .err (errDelim 105 0) ∧
    PReason.invalidIntegerValue ≠ PReason.unmatchedDelim 105 :=
  nondigit_integer_span_rejected [45, 48] [] (by decide) (by decide)

/-- Claim C8: for every successfully projected torrent, the layout mode is
decided structurally by the presence of the `files` key inside the decoded
info dictionary: `singleFileMode` is true exactly when `info["files"]` is
absent.  The only inputs of `ParseTorrent` are the file bytes (and the
incidental map iteration order, which the mode does not depend on); no
caller-supplied flag participates. -/
theorem mode_detected_by_files_key_presence
    (enc : List Nat) (ord : GoMap → GoMap) (t : Torrent) (raw : GoMap) (j : Nat)
    (info : GoMap)
    (hok : ParseTorrent enc ord = .ok t)
    (hparse : parseDictTop enc = .ok raw j)
    (hinfo : goLookup raw kInfo = some (.dict info)) :
    t.singleFileMode = (goLookup info kFiles).isNone := by
  unfold ParseTorrent at hok
  rw [hparse] at hok
  dsimp only at hok
  cases hms : msDecodeTorrent raw with
  | none => rw [hms] at hok; dsimp only at hok; cases hok
  | some t0 =>
    rw [hms] at hok
    dsimp only at hok
    rw [hinfo] at hok
    dsimp only at hok
    cases hlf : goLookup info kFiles with
    | none =>
      rw [hlf] at hok
      dsimp only [Option.isSome] at hok
      rw [if_neg (by simp)] at hok
      cases hss : msDecodeSingle info with
      | none => rw [hss] at hok; dsimp only at hok; cases hok
      | some si =>
        rw [hss] at hok
        dsimp only at hok
        cases hok
        rfl
    | some fv =>
      rw [hlf] at hok
      dsimp only [Option.isSome] at hok
      rw [if_pos (by simp)] at hok
      cases hmm : msDecodeMulti info with
      | none => rw [hmm] at hok; dsimp only at hok; cases hok
      | some mi =>
        rw [hmm] at hok
        dsimp only at hok
        cases hok
        rfl

/-- Witness for claim C8: the single-file torrent `tfEx` (no `files` key)
projects with `singleFileMode = true`. -/
theorem mode_detected_by_files_key_presence_witness :
    (resTorrent (ParseTorrent tfEx idOrder)).singleFileMode = true := by
  have h := mode_detected_by_files_key_presence tfEx idOrder
    (resTorrent (ParseTorrent tfEx idOrder)) (resMap (parseDictTop tfEx))
    (resPos (parseDictTop tfEx)) (infoDictOf (resMap (parseDictTop tfEx)))
    (by decide) (by rfl) (by rfl)
  rw [h]
  rfl

/-- Claim C9: an input that begins with a complete well-formed bencoded
dictionary followed by arbitrary trailing bytes parses exactly as the
dictionary alone does: `parseDict` stops at the dictionary's closing `e`
and never inspects the trailing bytes, and consequently `ParseTorrent` and
`ParseMetaInfo` on the extended input succeed with the same result. -/
theorem trailing_bytes_after_dictionary_ignored (b t : List Nat) :
    (∀ m j, parseDictTop b = .ok m j → parseDictTop (b ++ t) = .ok m j) ∧
    (∀ ord tor, ParseTorrent b ord = .ok tor → ParseTorrent (b ++ t) ord = .ok tor) ∧
    (∀ ord mi, ParseMetaInfo b ord = .ok mi → ParseMetaInfo (b ++ t) ord = .ok mi) := by
  have hdict : ∀ m j, parseDictTop b = .ok m j → parseDictTop (b ++ t) = .ok m j := by
    intro m j h
    unfold parseDictTop parseDictF at h ⊢
    split at h
    case isFalse => cases h
    case isTrue hib =>
    rw [dif_pos (show 0 < (b ++ t).length by rw [List.length_append]; omega)]
    rw [List.getElem_append_left hib]
    split at h
    case isTrue => cases h
    case isFalse h100 =>
    rw [if_neg h100]
    cases hp : parseF (stdFuel b) (.dictLoop 0 []) b 1 with
    | ok vv jj =>
      rw [hp] at h
      obtain ⟨hle, hext⟩ := parseF_ext t (stdFuel b) _ b 1 vv jj hp
      have hmono := parseF_mono (stdFuel b) (stdFuel (b ++ t)) _ (b ++ t) 1 vv jj
        (by unfold stdFuel; rw [List.length_append]; omega) hext
      rw [hmono]
      cases vv with
      | dict mm => dsimp only at h ⊢; exact h
      | str s => dsimp only at h; cases h
      | int n => dsimp only at h; cases h
      | list l => dsimp only at h; cases h
    | err e => rw [hp] at h; dsimp only at h; cases h
    | panics => rw [hp] at h; dsimp only at h; cases h
    | out => rw [hp] at h; dsimp only at h; cases h
  refine ⟨hdict, ?_, ?_⟩
  · intro ord tor h
    unfold ParseTorrent at h ⊢
    cases hp : parseDictTop b with
    | ok m j =>
      rw [hp] at h
      rw [hdict m j hp]
      dsimp only at h ⊢
      exact h
    | err e => rw [hp] at h; dsimp only at h; cases h
    | panics => rw [hp] at h; dsimp only at h; cases h
    | out => rw [hp] at h; dsimp only at h; cases h
  · intro ord mi h
    unfold ParseMetaInfo at h ⊢
    cases hp : parseDictTop b with
    | ok m j =>
      rw [hp] at h
      rw [hdict m j hp]
      dsimp only at h ⊢
      exact h
    | err e => rw [hp] at h; dsimp only at h; cases h
    | panics => rw [hp] at h; dsimp only at h; cases h
    | out => rw [hp] at h; dsimp only at h; cases h

/-- Witness for claim C9: the dictionary `"d1:ai1e1:bi2ee"` followed by the
trailing bytes `"garbage!!"` still parses to the two-entry map, consuming
14 bytes. -/
theorem trailing_bytes_after_dictionary_ignored_witness :
    parseDictTop (asciiBytes "d1:ai1e1:bi2ee" ++ asciiBytes "garbage!!") =
      .ok [([97], .int 1), ([98], .int 2)] 14 :=
  (trailing_bytes_after_dictionary_ignored (asciiBytes "d1:ai1e1:bi2ee")
    (asciiBytes "garbage!!")).1 [([97], BValue.int 1), ([98], BValue.int 2)] 14 rfl

/-- Claim C10: decoding the two-byte input `"ie"` succeeds with the integer
0: the scan finds the `e` immediately, the digit span is empty, and
`fromAscii` of a zero-length span returns 0 with the ok flag set, so no
invalid-integer error is raised. -/
theorem empty_integer_token_parses_zero :
    parseValTop (asciiBytes "ie") = .ok (.int 0) 2 ∧
    parseInt (asciiBytes "ie") 0 = .ok 0 2 ∧
    fromAscii [] = some 0 :=
  ⟨rfl, by decide, rfl⟩
